import Mathlib

set_option maxRecDepth 8192

/-!
Shallow embedding of the spdy-go stream-multiplexing core.

Two source layers are embedded:

* `myspdy` — the Stream/StreamReader/StreamWriter layer: header
  bookkeeping, `Send`/`SendHeaders`/`SendLines`, `Receive`,
  `WaitForHeader`, `Pipe`.
* `spdy` — the Session layer (`session.go`): stream table, stream-ID
  allocation (`nextIdOut`/`nextIdIn`/`isLocalId`), stream registration
  (`newStream`), teardown (`CloseStream`/`Close`), and the frame pump
  (`run`/`processFrame`).

Modelling conventions:
* Go `uint32` values are `Nat`, with arithmetic taken `% 2 ^ 32` at the
  points where Go wraps.
* Byte slices are modelled as `String`.
* The external frame sink (`FrameReadWriter.WriteFrame`) is explicit
  state: on the `myspdy` side a record of successfully written frames
  plus a script of per-write outcomes (so write failures are
  expressible); on the `spdy` session side frames written to the framer
  are recorded and session-side write failures are not modelled (no
  claim depends on them).
* Goroutines (the per-stream outbound pump, `go stream.Serve(...)`) are
  concurrency and are not modelled; the embedding follows the frame-pump
  thread's own state transitions.
* The message queue `MQ`, `updateHeaders`, and the `Stream` type used by
  `session.go` (`NewStream`, `Input.WriteFrame`, `Input.Close`,
  `Input.Closed`, `Output.Closed`) are code of this repository that is
  not under src/; they are modelled from the spec where marked.
-/

namespace myspdy

/-- Header maps (`http.Header`): an association list from a key to the
list of values stored under it.  Key canonicalisation is not modelled;
the embedded code uses keys consistently. -/
abbrev Header := List (String × List String)

/-- `http.Header.Get`: the first value stored for the key, or `""`. -/
def hGet (h : Header) (key : String) : String :=
  match List.lookup key h with
  | some (v :: _) => v
  | _ => ""

/-- `http.Header.Set`: replace the values stored for a key. -/
def hSet (h : Header) (key : String) (vals : List String) : Header :=
  (key, vals) :: List.filter (fun p => p.1 != key) h

/-- Modelled from the spec: `updateHeaders` (not under src/) merges a
header delta into a destination map — "later header frames add/override
keys; no removal". -/
def updateHeaders (dst : Header) (src : Header) : Header :=
  List.foldl (fun d p => hSet d p.1 p.2) dst src

/-- The frames a stream writer can emit (constructors of the external
`spdy` wire library).  `fin` models the FIN control flag. -/
inductive SFrame where
  | synStream (streamId : Nat) (fin : Bool) (headers : Header)
  | synReply (streamId : Nat) (fin : Bool) (headers : Header)
  | headersUpd (streamId : Nat) (fin : Bool) (headers : Header)
  | dataF (streamId : Nat) (data : String)
deriving DecidableEq

/-- Header-bearing (control) frames, as opposed to data frames. -/
def SFrame.isCtrl : SFrame → Bool
  | .dataF _ _ => false
  | _ => true

/-- The header map carried by a frame (empty for data frames). -/
def SFrame.headersOf : SFrame → Header
  | .synStream _ _ h => h
  | .synReply _ _ h => h
  | .headersUpd _ _ h => h
  | .dataF _ _ => []

/-- The writer-side view of the session's frame sink
(`writer.stream.session.WriteFrame`): the frames successfully written so
far, plus a script of outcomes for the upcoming writes.  An exhausted
script means every further write succeeds. -/
structure WSt where
  frames : List SFrame
  script : List (Option String)
deriving DecidableEq

/-- One `session.WriteFrame` call as seen from a writer: consume the next
scripted outcome; on success append the frame to the wire record. -/
def sessionWriteFrame (st : WSt) (f : SFrame) : WSt × Option String :=
  match st.script with
  | [] => ({ st with frames := st.frames ++ [f] }, none)
  | none :: rest => ({ frames := st.frames ++ [f], script := rest }, none)
  | some e :: rest => ({ st with script := rest }, some e)

/-- `StreamWriter`.  The `id` and `isMine` fields stand for the source's
`stream` back-pointer (`writer.stream.Id`, `writer.stream.IsMine`); the
session sink is threaded explicitly as `WSt`. -/
structure StreamWriter where
  id : Nat
  isMine : Bool
  headers : Header
  nFramesSent : Nat
deriving DecidableEq

/-- `StreamWriter.writeFrame`: write through the session sink and count
the frame on success only. -/
def StreamWriter.writeFrame (w : StreamWriter) (st : WSt) (f : SFrame) :
    StreamWriter × WSt × Option String :=
  let (st', e) := sessionWriteFrame st f
  match e with
  | some msg => (w, st', some msg)
  | none => ({ w with nFramesSent := w.nFramesSent + 1 }, st', none)

/-- `StreamWriter.SendHeaders`: first frame from the stream's initiator
is SYN_STREAM, first frame from the other side is SYN_REPLY, every later
header send is a HEADERS frame; `final` becomes the FIN flag. -/
def StreamWriter.SendHeaders (w : StreamWriter) (st : WSt) (final : Bool) :
    StreamWriter × WSt × Option String :=
  if w.nFramesSent = 0 then
    if w.isMine then
      w.writeFrame st (SFrame.synStream w.id final w.headers)
    else
      w.writeFrame st (SFrame.synReply w.id final w.headers)
  else
    w.writeFrame st (SFrame.headersUpd w.id final w.headers)

/-- `StreamWriter.Send`: when no frame has been sent yet, first do the
implicit non-final `SendHeaders` (its result is dropped, as in the
source), then write the data frame directly through the session sink
(not through `writeFrame`). -/
def StreamWriter.Send (w : StreamWriter) (st : WSt) (data : String) :
    StreamWriter × WSt × Option String :=
  let (w1, st1) :=
    if w.nFramesSent = 0 then
      let (w', st', _) := w.SendHeaders st false
      (w', st')
    else (w, st)
  let (st2, e) := sessionWriteFrame st1 (SFrame.dataF w1.id data)
  (w1, st2, e)

/-- A line source (`bufio.Reader`): the records `ReadLine` will yield in
order, then a final outcome — `none` for end-of-stream (`io.EOF`),
`some e` for a read error. -/
structure LineSrc where
  lines : List String
  endErr : Option String
deriving DecidableEq

/-- `StreamWriter.SendLines`: send each record with `Send`; stop at the
source's end-of-stream.  Note the source's `if writer.Send(&line) != nil
{ return err }` returns `err` — the `ReadLine` error, which is nil at
that point. -/
def StreamWriter.SendLines (w : StreamWriter) (st : WSt) (src : LineSrc) :
    StreamWriter × WSt × Option String :=
  match h : src.lines with
  | [] =>
      match src.endErr with
      | none => (w, st, none)
      | some e => (w, st, some e)
  | line :: rest =>
      let (w', st', sendErr) := w.Send st line
      if sendErr.isSome then
        (w', st', none)
      else
        w'.SendLines st' { src with lines := rest }
termination_by src.lines.length
decreasing_by
  simp [h]

/-- Reader-side error values: end-of-stream after close-and-drain, or the
never-returning receive on an empty open queue (the sequential embedding
reports the latter as `blocked`). -/
inductive RErr where
  | eof
  | blocked
deriving DecidableEq

/-- One queued stream message: a data payload and/or a header delta. -/
structure streamMessage where
  data : Option String
  headers : Option Header
deriving DecidableEq

/-- Modelled from the spec: the message queue `MQ` (not under src/) — an
ordered FIFO of messages plus a closed flag; receive yields the head,
and the end-of-stream error once closed and drained. -/
structure MQ where
  msgs : List streamMessage
  closed : Bool
deriving DecidableEq

/-- `StreamReader`: accumulated header state plus the message queue
(source field `data *MQ`). -/
structure StreamReader where
  headers : Header
  data : MQ
deriving DecidableEq

/-- `StreamReader.Receive`: pull the next queued message, splitting it
into its payload and header parts; once the queue is closed and drained
the end-of-stream error is returned (an empty open queue would block —
`RErr.blocked`). -/
def StreamReader.Receive (r : StreamReader) :
    StreamReader × Option String × Option Header × Option RErr :=
  match r.data.msgs with
  | m :: rest =>
      ({ r with data := { r.data with msgs := rest } }, m.data, m.headers, none)
  | [] => (r, none, none, some (if r.data.closed then RErr.eof else RErr.blocked))

/-- `StreamReader.WaitForHeader`: receive and discard messages until the
key has a value in the accumulated header state, then return it. -/
def StreamReader.WaitForHeader (r : StreamReader) (key : String) :
    StreamReader × String × Option RErr :=
  if hGet r.headers key = "" then
    match h : r.Receive with
    | (r', _, _, some e) => (r', "", some e)
    | (r', _, _, none) => r'.WaitForHeader key
  else (r, hGet r.headers key, none)
termination_by r.data.msgs.length
decreasing_by
  unfold StreamReader.Receive at h
  cases hm : r.data.msgs with
  | nil => rw [hm] at h; simp at h
  | cons m rest =>
      rw [hm] at h
      simp only [Prod.mk.injEq] at h
      rw [← h.1]
      simp

/-- `StreamReader.Pipe`: drain the reader into a writer — header messages
become a header merge plus a non-final `SendHeaders`, data messages
become `Send`; end-of-stream returns success.  Writer errors are dropped
by the source's bare statement calls. -/
def StreamReader.Pipe (r : StreamReader) (w : StreamWriter) (st : WSt) :
    StreamReader × StreamWriter × WSt × Option RErr :=
  match h : r.Receive with
  | (r', _, _, some RErr.eof) => (r', w, st, none)
  | (r', _, _, some RErr.blocked) => (r', w, st, some RErr.blocked)
  | (r', d, hd, none) =>
    match hd with
    | some hs =>
        let w1 := { w with headers := updateHeaders w.headers hs }
        let (w2, st2, _) := w1.SendHeaders st false
        r'.Pipe w2 st2
    | none =>
      match d with
      | some dat =>
          let (w2, st2, _) := w.Send st dat
          r'.Pipe w2 st2
      | none => r'.Pipe w st
termination_by r.data.msgs.length
decreasing_by
  all_goals
    unfold StreamReader.Receive at h
    cases hm : r.data.msgs with
    | nil => rw [hm] at h; simp at h
    | cons m rest =>
        rw [hm] at h
        simp only [Prod.mk.injEq] at h
        rw [← h.1]
        simp

/-- The frames an operation appended to the wire record. -/
def newFrames (st st' : WSt) : List SFrame :=
  st'.frames.drop st.frames.length

/-- Number of control (header-bearing) frames in a list. -/
def ctrlCount (l : List SFrame) : Nat :=
  (l.filter (fun f => f.isCtrl)).length

end myspdy

namespace spdy

/-- Wire frames as the session routes them: the session reads only a
frame's kind, stream ID, FIN flag and (for resets) the status code;
payloads travel opaquely to the stream's reader and are elided. -/
inductive Frame where
  | synStream (streamId : Nat) (fin : Bool)
  | synReply (streamId : Nat) (fin : Bool)
  | headersF (streamId : Nat) (fin : Bool)
  | dataF (streamId : Nat) (fin : Bool)
  | rstStream (streamId : Nat) (status : Nat)
  | settings
  | noop
  | ping
  | goAway
deriving DecidableEq

/-- `Frame.GetStreamId`: 0 for session-wide frames. -/
def Frame.GetStreamId : Frame → Nat
  | .synStream id _ => id
  | .synReply id _ => id
  | .headersF id _ => id
  | .dataF id _ => id
  | .rstStream id _ => id
  | _ => 0

/-- The FIN control flag of a frame. -/
def Frame.fin : Frame → Bool
  | .synStream _ f => f
  | .synReply _ f => f
  | .headersF _ f => f
  | .dataF _ f => f
  | _ => false

/-- The `spdy.ProtocolError` reset status code. -/
def ProtocolError : Nat := 1

/-- Modelled from the spec: the per-stream state the session observes
(the `Stream` type with `Input`/`Output` halves is not under src/).
`inputMsgs` records the frames delivered into the stream's Reader;
`inputClosed`/`outputClosed` are the two half-close flags. -/
structure SStream where
  id : Nat
  isLocal : Bool
  inputMsgs : List Frame
  inputClosed : Bool
  outputClosed : Bool
deriving DecidableEq

/-- Modelled from the spec: `NewStream` builds a fresh stream with both
halves open ("Construction always creates both halves together"). -/
def NewStream (id : Nat) (isLocal : Bool) : SStream :=
  { id := id, isLocal := isLocal, inputMsgs := [],
    inputClosed := false, outputClosed := false }

/-- Outcome of delivering a frame into a stream's reader. -/
inductive InputRes where
  | ok
  | eofR
  | errR
deriving DecidableEq

/-- Modelled from the spec: `stream.Input.WriteFrame` (not under src/) —
deliver the frame into the Reader's queue; it signals end-of-stream
(`io.EOF`) when the frame closes the inbound direction (FIN flag), and
an error when the queue is already closed. -/
def SStream.inputWriteFrame (st : SStream) (f : Frame) : SStream × InputRes :=
  if st.inputClosed then (st, InputRes.errR)
  else
    let st' := { st with inputMsgs := st.inputMsgs ++ [f] }
    if f.fin then ({ st' with inputClosed := true }, InputRes.eofR)
    else (st', InputRes.ok)

/-- The connection-scoped session state.  `sent` records the frames the
session wrote to its framer. -/
structure Session where
  Server : Bool
  lastStreamIdOut : Nat
  lastStreamIdIn : Nat
  streams : List (Nat × SStream)
  hasHandler : Bool
  closed : Bool
  sent : List Frame
deriving DecidableEq

/-- `NewSession` (the `go session.run()` it spawns is modelled separately
by `Session.run`). -/
def NewSession (hasHandler Server : Bool) : Session :=
  { Server := Server, lastStreamIdOut := 0, lastStreamIdIn := 0,
    streams := [], hasHandler := hasHandler, closed := false, sent := [] }

def Session.Closed (s : Session) : Bool := s.closed

def Session.NStreams (s : Session) : Nat := s.streams.length

/-- `isLocalId`: even IDs belong to the server side, odd ones to the
client side. -/
def Session.isLocalId (s : Session) (id : Nat) : Bool :=
  if s.Server then id % 2 == 0 else id % 2 != 0

/-- `nextIdOut`: 2 (server) or 1 (client) before any allocation, then the
last outgoing ID plus 2 (uint32 arithmetic; the source's FIXME notes the
unchecked wrap). -/
def Session.nextIdOut (s : Session) : Nat :=
  if s.lastStreamIdOut = 0 then
    if s.Server then 2 else 1
  else (s.lastStreamIdOut + 2) % 2 ^ 32

/-- `nextIdIn`: the expected next remotely-opened ID. -/
def Session.nextIdIn (s : Session) : Nat :=
  if s.lastStreamIdIn = 0 then
    if s.Server then 1 else 2
  else (s.lastStreamIdIn + 2) % 2 ^ 32

/-- `session.WriteFrame` on the session side: the frame is recorded on
the wire. -/
def Session.writeFrameOut (s : Session) (f : Frame) : Session :=
  { s with sent := s.sent ++ [f] }

/-- `newStream`: validate the ID's parity and sequencing for the claimed
direction, reject duplicates, then register the stream and advance the
direction's high-water mark.  The per-stream outbound pump goroutine the
source starts here is concurrency and is not modelled. -/
def Session.newStream (s : Session) (id : Nat) (isLocal : Bool) :
    Session × Except String SStream :=
  if isLocal && (!(s.isLocalId id) || id != s.nextIdOut) then
    (s, Except.error "Invalid local stream id")
  else if !isLocal && (s.isLocalId id || id != s.nextIdIn) then
    (s, Except.error "Invalid remote stream id")
  else if (List.lookup id s.streams).isSome then
    (s, Except.error ("Stream " ++ toString id ++ " already exists"))
  else
    let stream := NewStream id isLocal
    let s' := { s with
      streams := (id, stream) :: s.streams,
      lastStreamIdOut := if isLocal then id else s.lastStreamIdOut,
      lastStreamIdIn := if isLocal then s.lastStreamIdIn else id }
    (s', Except.ok stream)

/-- `OpenStream`: allocate the next outgoing ID and register a
locally-opened stream; sends no frame. -/
def Session.OpenStream (s : Session) : Session × Except String SStream :=
  s.newStream s.nextIdOut true

/-- `CloseStream`: fail when the ID is unknown; otherwise close the
Reader's queue (`stream.Input.Close()`) and delete the table entry.  The
closed stream stays visible to holders of the `Stream` pointer, so it is
returned as the success value. -/
def Session.CloseStream (s : Session) (id : Nat) :
    Session × Except String SStream :=
  match List.lookup id s.streams with
  | none => (s, Except.error ("No such stream: " ++ toString id))
  | some st =>
      ({ s with streams := List.filter (fun p => p.1 != id) s.streams },
       Except.ok { st with inputClosed := true })

/-- `Close`: set the terminal flag and close every registered stream. -/
def Session.Close (s : Session) : Session :=
  let s1 := { s with closed := true }
  List.foldl (fun acc id => (Session.CloseStream acc id).1) s1
    (s1.streams.map Prod.fst)

/-- Replace the table entry for `id` (the Go code mutates the stream
through its pointer). -/
def updateStreamTable (l : List (Nat × SStream)) (id : Nat) (st : SStream) :
    List (Nat × SStream) :=
  l.map (fun p => if p.1 = id then (p.1, st) else p)

/-- The stream-scoped tail of `processFrame`: look the stream up (reset
with ProtocolError when absent), deliver the frame into its Reader, and
tear the stream down on end-of-stream with the output already closed, or
on any other delivery error. -/
def Session.deliverFrame (s : Session) (streamId : Nat) (f : Frame) : Session :=
  match List.lookup streamId s.streams with
  | none => s.writeFrameOut (Frame.rstStream streamId ProtocolError)
  | some stream =>
      let (stream', res) := stream.inputWriteFrame f
      let s' := { s with streams := updateStreamTable s.streams streamId stream' }
      match res with
      | InputRes.eofR =>
          if stream'.outputClosed then (s'.CloseStream streamId).1 else s'
      | InputRes.errR => (s'.CloseStream streamId).1
      | InputRes.ok => s'

/-- `processFrame`: stream-scoped frames are routed to their stream, a
SYN_STREAM first attempts to create it (replying with a
reset/ProtocolError on failure); session-wide frames (ID 0) are logged
only.  The `go stream.Serve(session.handler)` spawn has no session-state
effect and is not modelled. -/
def Session.processFrame (s : Session) (f : Frame) : Session :=
  if f.GetStreamId != 0 then
    match f with
    | Frame.synStream _ _ =>
        match s.newStream f.GetStreamId false with
        | (s', Except.error _) =>
            s'.writeFrameOut (Frame.rstStream f.GetStreamId ProtocolError)
        | (s', Except.ok _) =>
            s'.deliverFrame f.GetStreamId f
    | _ => s.deliverFrame f.GetStreamId f
  else
    s

/-- The frame-pump loop of `run`: process each frame read from the
transport; when the read fails, close the session and propagate the read
error. -/
def Session.runLoop (s : Session) (frames : List Frame) (readErr : String) :
    Session × String :=
  match frames with
  | [] => (s.Close, readErr)
  | f :: rest => (s.processFrame f).runLoop rest readErr

/-- `run`: advertise shutdown with a go-away frame when no handler was
supplied, then pump frames.  The transport is modelled as the frames
successfully read followed by the read error that ends the loop. -/
def Session.run (s : Session) (frames : List Frame) (readErr : String) :
    Session × String :=
  let s0 := if !s.hasHandler then s.writeFrameOut Frame.goAway else s
  s0.runLoop frames readErr

/-- Well-formedness of a session's stream table: registered IDs are
nonzero and bounded by their direction's high-water mark.  Sessions
built by `NewSession` and evolved through the session's own operations
keep this invariant (see the preservation theorems). -/
def SessionWF (s : Session) : Prop :=
  ∀ p ∈ s.streams, p.1 ≠ 0 ∧
    (s.isLocalId p.1 = true → p.1 ≤ s.lastStreamIdOut) ∧
    (s.isLocalId p.1 = false → p.1 ≤ s.lastStreamIdIn)

end spdy

/-! Concrete fixtures used by the claim theorems and witnesses. -/

/-- A fresh locally-opened writer: no frame sent yet. -/
def freshWriter : myspdy.StreamWriter :=
  { id := 1, isMine := true, headers := [], nFramesSent := 0 }

/-- A sink whose every write succeeds. -/
def cleanSink : myspdy.WSt := { frames := [], script := [] }

/-- A sink that fails the first write and accepts all later ones. -/
def failFirstSink : myspdy.WSt := { frames := [], script := [some "boom"] }

/-- A sink that accepts the first write and fails the second. -/
def synOkDataFailSink : myspdy.WSt :=
  { frames := [], script := [none, some "boom"] }

/-- A one-record line source ending in EOF. -/
def helloSrc : myspdy.LineSrc := { lines := ["hello"], endErr := none }

/-- The queued messages of claim C8: a header delta, two data payloads. -/
def c8Queue : List myspdy.streamMessage :=
  [{ data := none, headers := some [("A", ["1"])] },
   { data := some "x", headers := none },
   { data := some "y", headers := none }]

/-- A reader holding exactly C8's messages, with end-of-stream after. -/
def c8Reader (rh : myspdy.Header) : myspdy.StreamReader :=
  { headers := rh, data := { msgs := c8Queue, closed := true } }

/-- A reader whose accumulated headers already hold `Status`. -/
def c10Reader : myspdy.StreamReader :=
  { headers := [("Status", ["200"])], data := { msgs := [], closed := false } }

/-- A client-side session with stream 1 registered as locally opened. -/
def sessionWith1 : spdy.Session :=
  ((spdy.NewSession true false).newStream 1 true).1

/-! Helper lemmas about the association-list stream table. -/

theorem lookup_mem {β : Type} (k : Nat) (v : β) (l : List (Nat × β))
    (h : List.lookup k l = some v) : (k, v) ∈ l := by
  induction l with
  | nil => simp [List.lookup] at h
  | cons p t ih =>
      obtain ⟨a, b⟩ := p
      simp only [List.lookup] at h
      cases hbeq : (k == a) with
      | true =>
          rw [hbeq] at h
           
          simp only [Option.some.injEq] at h
          have hk : k = a := by simpa using hbeq
          subst hk
          subst h
          exact List.mem_cons_self _ _
      | false =>
          rw [hbeq] at h
          exact List.mem_cons_of_mem _ (ih h)

theorem lookup_none_filter {β : Type} (k : Nat) (l : List (Nat × β))
    (h : List.lookup k l = none) : List.filter (fun p => p.1 != k) l = l := by
  induction l with
  | nil => rfl
  | cons p t ih =>
      obtain ⟨a, b⟩ := p
      simp only [List.lookup] at h
      cases hbeq : (k == a) with
      | true => rw [hbeq] at h; simp at h
      | false =>
          rw [hbeq] at h
          have hne : (a != k) = true := by
            simp only [bne_iff_ne, ne_eq]
            intro hc
            subst hc
            simp at hbeq
          simp only [List.filter_cons]
          simp only [hne, if_true]
          rw [ih h]

theorem lookup_filter_self {β : Type} (k : Nat) (l : List (Nat × β)) :
    List.lookup k (List.filter (fun p => p.1 != k) l) = none := by
  induction l with
  | nil => rfl
  | cons p t ih =>
      obtain ⟨a, b⟩ := p
      by_cases hk : a = k
      · subst hk
        have hfa : ((a, b).1 != a) = false := by simp
        simp only [List.filter_cons, hfa, Bool.false_eq_true, if_false]
        exact ih
      · have hne : ((a, b).1 != k) = true := by simpa [bne_iff_ne] using hk
        simp only [List.filter_cons, hne, if_true]
        simp only [List.lookup]
        have hkb : (k == a) = false := by
          simp only [beq_eq_false_iff_ne, ne_eq]
          exact fun hc => hk hc.symm
        rw [hkb]
        exact ih

/-- `CloseStream` on an unknown ID: error, session unchanged. -/
theorem closeStream_none (s : spdy.Session) (id : Nat)
    (h : List.lookup id s.streams = none) :
    s.CloseStream id = (s, Except.error ("No such stream: " ++ toString id)) := by
  unfold spdy.Session.CloseStream
  rw [h]

/-- `CloseStream` on a registered ID filters its entries out of the
table. -/
theorem closeStream_some_streams (s : spdy.Session) (id : Nat)
    (st : spdy.SStream) (h : List.lookup id s.streams = some st) :
    (s.CloseStream id).1.streams = List.filter (fun p => p.1 != id) s.streams := by
  unfold spdy.Session.CloseStream
  rw [h]

/-- C10: when the accumulated header map already holds a non-empty value
for `key`, `WaitForHeader` returns that value immediately, consuming no
message from the queue. -/
theorem waitForHeader_returns_immediately (r : myspdy.StreamReader)
    (key : String) (h : myspdy.hGet r.headers key ≠ "") :
    r.WaitForHeader key = (r, myspdy.hGet r.headers key, none) := by
  unfold myspdy.StreamReader.WaitForHeader
  simp [h]

theorem waitForHeader_returns_immediately_witness :
    c10Reader.WaitForHeader "Status" = (c10Reader, "200", none) :=
  waitForHeader_returns_immediately c10Reader "Status" (by decide)

/-- C3 counterexample: with a sink failing the first write, the implicit
header send inside `Send` fails with "boom", yet `Send` returns no error
and still emits the data frame. -/
theorem send_header_error_not_propagated_cex :
    (freshWriter.SendHeaders failFirstSink false).2.2 = some "boom" ∧
    (freshWriter.Send failFirstSink "x").2.2 = none ∧
    (freshWriter.Send failFirstSink "x").2.1.frames =
      [myspdy.SFrame.dataF 1 "x"] :=
  ⟨rfl, rfl, rfl⟩

/-- C3 (amended): with `framesSent = 0`, `Send` first performs the
implicit non-final `SendHeaders` but discards its result; the data frame
is then emitted unconditionally and `Send` returns the data-frame
write's outcome. -/
theorem send_implicit_headers_result_ignored (w : myspdy.StreamWriter)
    (st : myspdy.WSt) (data : String) (h : w.nFramesSent = 0) :
    ∃ w' st' e, w.SendHeaders st false = (w', st', e) ∧
      w.Send st data =
        (w', (myspdy.sessionWriteFrame st' (myspdy.SFrame.dataF w'.id data)).1,
         (myspdy.sessionWriteFrame st' (myspdy.SFrame.dataF w'.id data)).2) := by
  rcases hsh : w.SendHeaders st false with ⟨w', st', e⟩
  refine ⟨w', st', e, rfl, ?_⟩
  unfold myspdy.StreamWriter.Send
  rcases hdw : myspdy.sessionWriteFrame st' (myspdy.SFrame.dataF w'.id data)
    with ⟨st2, e2⟩
  simp [h, hsh, hdw]

theorem send_implicit_headers_result_ignored_witness :
    ∃ w' st' e, freshWriter.SendHeaders failFirstSink false = (w', st', e) ∧
      freshWriter.Send failFirstSink "x" =
        (w', (myspdy.sessionWriteFrame st' (myspdy.SFrame.dataF w'.id "x")).1,
         (myspdy.sessionWriteFrame st' (myspdy.SFrame.dataF w'.id "x")).2) :=
  send_implicit_headers_result_ignored freshWriter failFirstSink "x" rfl

/-- C4 counterexample: the first `Send` on a fresh writer successfully
emits two frames (the implicit SYN_STREAM, then the data frame) but
`framesSent` ends at 1 — the data frame bypasses the counting point. -/
theorem framesSent_misses_data_frames_cex :
    (freshWriter.Send cleanSink "x").1.nFramesSent = 1 ∧
    (freshWriter.Send cleanSink "x").2.1.frames.length = 2 :=
  ⟨rfl, rfl⟩

/-- C5: an input where the single record's `Send` fails — `Send` fails
with "boom", yet `SendLines` stops and returns nil: the source's
`return err` returns the `ReadLine` error, which is provably nil at that
point, instead of the send error. -/
theorem sendLines_swallows_send_error :
    (freshWriter.Send synOkDataFailSink "hello").2.2 = some "boom" ∧
    (freshWriter.SendLines synOkDataFailSink helloSrc).2.2 = none := by
  constructor
  · rfl
  · unfold myspdy.StreamWriter.SendLines
    simp [helloSrc, freshWriter, synOkDataFailSink, myspdy.StreamWriter.Send,
      myspdy.StreamWriter.SendHeaders, myspdy.StreamWriter.writeFrame,
      myspdy.sessionWriteFrame]

/-- C9: registering any ID already present in the stream table fails and
leaves the session (table and both high-water marks) unchanged. -/
theorem newStream_duplicate_fails (s : spdy.Session) (id : Nat)
    (isLocal : Bool) (st : spdy.SStream)
    (h : List.lookup id s.streams = some st) :
    (s.newStream id isLocal).1 = s ∧
    ∃ e, (s.newStream id isLocal).2 = Except.error e := by
  unfold spdy.Session.newStream
  split
  · exact ⟨rfl, _, rfl⟩
  split
  · exact ⟨rfl, _, rfl⟩
  split
  · exact ⟨rfl, _, rfl⟩
  rename_i hdup
  rw [h] at hdup
  simp at hdup

theorem newStream_duplicate_fails_witness :
    (sessionWith1.newStream 1 true).1 = sessionWith1 ∧
    ∃ e, (sessionWith1.newStream 1 true).2 = Except.error e :=
  newStream_duplicate_fails sessionWith1 1 true (spdy.NewStream 1 true) rfl

/-- C6: `CloseStream` fails and changes nothing when the ID is unknown;
on a registered ID it closes the stream's Reader queue and removes the
entry, so a second `CloseStream` on the same ID fails. -/
theorem closeStream_spec (s : spdy.Session) (id : Nat) :
    (List.lookup id s.streams = none →
        s.CloseStream id =
          (s, Except.error ("No such stream: " ++ toString id))) ∧
    (∀ st, List.lookup id s.streams = some st →
        (s.CloseStream id).2 = Except.ok { st with inputClosed := true } ∧
        List.lookup id (s.CloseStream id).1.streams = none ∧
        ∃ e, ((s.CloseStream id).1.CloseStream id).2 = Except.error e) := by
  constructor
  · intro h
    exact closeStream_none s id h
  · intro st h
    have h1 : (s.CloseStream id).2 = Except.ok { st with inputClosed := true } := by
      unfold spdy.Session.CloseStream
      rw [h]
    have h2 : List.lookup id (s.CloseStream id).1.streams = none := by
      rw [closeStream_some_streams s id st h]
      exact lookup_filter_self id s.streams
    refine ⟨h1, h2, ?_⟩
    exact ⟨_, by rw [closeStream_none _ _ h2]⟩

theorem closeStream_spec_witness :
    (sessionWith1.CloseStream 1).2 =
      Except.ok { spdy.NewStream 1 true with inputClosed := true } ∧
    List.lookup 1 (sessionWith1.CloseStream 1).1.streams = none ∧
    ∃ e, ((sessionWith1.CloseStream 1).1.CloseStream 1).2 = Except.error e :=
  (closeStream_spec sessionWith1 1).2 (spdy.NewStream 1 true) rfl

/-- C1: the allocator's first value is 1 for a client-role session and 2
for a server-role one, and after a successful local registration of
stream `id` the next allocation is exactly `id + 2` (within the
non-wrapping 32-bit range; the source's uint32 addition wraps, see its
FIXME). -/
theorem nextIdOut_first_and_after_register :
    (∀ s : spdy.Session, s.lastStreamIdOut = 0 →
        s.nextIdOut = if s.Server then 2 else 1) ∧
    (∀ (s s' : spdy.Session) (id : Nat) (st : spdy.SStream),
        s.newStream id true = (s', Except.ok st) → id + 2 < 2 ^ 32 →
        s'.nextIdOut = id + 2) := by
  constructor
  · intro s h
    simp [spdy.Session.nextIdOut, h]
  · intro s s' id st h hlt
    unfold spdy.Session.newStream at h
    split at h
    · simp at h
    split at h
    · simp at h
    split at h
    · simp at h
    rename_i hval hrem hdup
    simp only [Prod.mk.injEq] at h
    obtain ⟨hs', -⟩ := h
    rw [← hs']
    have hloc : s.isLocalId id = true := by
      cases hli : s.isLocalId id with
      | true => rfl
      | false => exact absurd (by simp [hli]) hval
    have hnext : id = s.nextIdOut := by
      by_cases hn : id = s.nextIdOut
      · exact hn
      · exact absurd (by simp [hn]) hval
    by_cases hid : id = 0
    · subst hid
      have hServer : s.Server = true := by
        cases hS : s.Server with
        | true => rfl
        | false =>
            unfold spdy.Session.isLocalId at hloc
            rw [hS] at hloc
            simp at hloc
      simp [spdy.Session.nextIdOut, hServer]
    · simp [spdy.Session.nextIdOut, hid, Nat.mod_eq_of_lt hlt]
      simpa using hlt

theorem nextIdOut_first_and_after_register_witness :
    (spdy.NewSession true false).nextIdOut = 1 ∧
    ((spdy.NewSession true false).newStream 1 true).1.nextIdOut = 3 := by
  constructor
  · have h := nextIdOut_first_and_after_register.1 (spdy.NewSession true false) rfl
    simpa using h
  · have h := nextIdOut_first_and_after_register.2 (spdy.NewSession true false)
      ((spdy.NewSession true false).newStream 1 true).1 1 (spdy.NewStream 1 true)
      rfl (by norm_num)
    simpa using h

/-- `CloseStream` always leaves the table filtered of the closed ID. -/
theorem closeStream_fst_streams (s : spdy.Session) (id : Nat) :
    (s.CloseStream id).1.streams =
      List.filter (fun p => p.1 != id) s.streams := by
  cases hl : List.lookup id s.streams with
  | none =>
      rw [closeStream_none s id hl]
      exact (lookup_none_filter id s.streams hl).symm
  | some st => exact closeStream_some_streams s id st hl

theorem closeStream_fst_closed (s : spdy.Session) (id : Nat) :
    (s.CloseStream id).1.closed = s.closed := by
  unfold spdy.Session.CloseStream
  cases hl : List.lookup id s.streams with
  | none => rfl
  | some st => rfl

theorem foldl_closeStream_streams (keys : List Nat) (s : spdy.Session)
    (h : ∀ p ∈ s.streams, p.1 ∈ keys) :
    (List.foldl (fun acc id => (spdy.Session.CloseStream acc id).1) s
      keys).streams = [] := by
  induction keys generalizing s with
  | nil =>
      simp only [List.foldl_nil]
      cases hs : s.streams with
      | nil => rfl
      | cons p t =>
          exact absurd (h p (by rw [hs]; exact List.mem_cons_self _ _))
            (List.not_mem_nil _)
  | cons k ks ih =>
      simp only [List.foldl_cons]
      apply ih
      intro p hp
      rw [closeStream_fst_streams] at hp
      have hmem := List.mem_filter.mp hp
      have hk := h p hmem.1
      rcases List.mem_cons.mp hk with hpk | hpk
      · exfalso
        have hne := hmem.2
        rw [hpk] at hne
        simp at hne
      · exact hpk

theorem foldl_closeStream_closed (keys : List Nat) (s : spdy.Session) :
    (List.foldl (fun acc id => (spdy.Session.CloseStream acc id).1) s
      keys).closed = s.closed := by
  induction keys generalizing s with
  | nil => rfl
  | cons k ks ih =>
      simp only [List.foldl_cons]
      rw [ih, closeStream_fst_closed]

/-- `Close` sets the terminal flag and empties the stream table. -/
theorem close_closes_everything (s : spdy.Session) :
    (s.Close).closed = true ∧ (s.Close).streams = [] := by
  unfold spdy.Session.Close
  constructor
  · rw [foldl_closeStream_closed]
  · apply foldl_closeStream_streams
    intro p hp
    exact List.mem_map_of_mem Prod.fst hp

theorem runLoop_read_failure (frames : List spdy.Frame) (s : spdy.Session)
    (readErr : String) :
    (s.runLoop frames readErr).2 = readErr ∧
    (s.runLoop frames readErr).1.closed = true ∧
    (s.runLoop frames readErr).1.streams = [] := by
  induction frames generalizing s with
  | nil =>
      unfold spdy.Session.runLoop
      exact ⟨rfl, (close_closes_everything s).1, (close_closes_everything s).2⟩
  | cons f rest ih =>
      unfold spdy.Session.runLoop
      exact ih (s.processFrame f)

/-- C7: when the frame pump's transport read fails, `run` returns that
read error, the session's closed flag is set, and every stream that was
registered has been closed via `CloseStream` — the table ends empty. -/
theorem run_read_failure_closes_all (s : spdy.Session)
    (frames : List spdy.Frame) (readErr : String) :
    (s.run frames readErr).2 = readErr ∧
    (s.run frames readErr).1.closed = true ∧
    (s.run frames readErr).1.streams = [] := by
  unfold spdy.Session.run
  exact runLoop_read_failure frames _ readErr

/-- Under `SessionWF`, the expected next incoming ID is never already
registered. -/
theorem wf_next_in_unregistered (s : spdy.Session) (id : Nat)
    (hWF : spdy.SessionWF s) (hnz : id ≠ 0)
    (hlt : s.lastStreamIdIn + 2 < 2 ^ 32)
    (hloc : s.isLocalId id = false) (hnext : id = s.nextIdIn) :
    List.lookup id s.streams = none := by
  cases hl : List.lookup id s.streams with
  | none => rfl
  | some st =>
      exfalso
      have hmem := lookup_mem id st s.streams hl
      obtain ⟨hnz', hlocb, hinb⟩ := hWF (id, st) hmem
      have hle : id ≤ s.lastStreamIdIn := hinb hloc
      unfold spdy.Session.nextIdIn at hnext
      by_cases h0 : s.lastStreamIdIn = 0
      · rw [if_pos h0] at hnext
        rw [h0] at hle
        omega
      · rw [if_neg h0] at hnext
        rw [Nat.mod_eq_of_lt hlt] at hnext
        omega


/-- C2: a SYN_STREAM with nonzero stream ID is accepted and registered
iff the ID has remote parity and equals the expected next incoming ID;
otherwise the session replies with a reset carrying ProtocolError and
registers nothing.  `SessionWF` is the table invariant the session's own
operations maintain; the wrap bound keeps the uint32 increment inside
the spec's 31-bit ID space. -/
theorem processFrame_synStream_accepts_iff (s : spdy.Session) (id : Nat)
    (fin : Bool) (hWF : spdy.SessionWF s) (hnz : id ≠ 0)
    (hlt : s.lastStreamIdIn + 2 < 2 ^ 32) :
    (s.isLocalId id = false ∧ id = s.nextIdIn →
        (List.lookup id
          (s.processFrame (spdy.Frame.synStream id fin)).streams).isSome ∧
        (s.processFrame (spdy.Frame.synStream id fin)).sent = s.sent) ∧
    (¬(s.isLocalId id = false ∧ id = s.nextIdIn) →
        (s.processFrame (spdy.Frame.synStream id fin)).streams = s.streams ∧
        (s.processFrame (spdy.Frame.synStream id fin)).sent =
          s.sent ++ [spdy.Frame.rstStream id spdy.ProtocolError]) := by
  constructor
  · rintro ⟨hloc, hnext⟩
    have hnone : List.lookup id s.streams = none :=
      wf_next_in_unregistered s id hWF hnz hlt hloc hnext
    have hbne : (id != s.nextIdIn) = false := by simp [hnext]
    have hns : s.newStream id false =
        ({ s with
            streams := (id, spdy.NewStream id false) :: s.streams,
            lastStreamIdIn := id },
         Except.ok (spdy.NewStream id false)) := by
      unfold spdy.Session.newStream
      simp [hloc, hbne, hnone]
    have heq : s.processFrame (spdy.Frame.synStream id fin) =
        spdy.Session.deliverFrame
          ({ s with
              streams := (id, spdy.NewStream id false) :: s.streams,
              lastStreamIdIn := id }) id (spdy.Frame.synStream id fin) := by
      unfold spdy.Session.processFrame
      simp [spdy.Frame.GetStreamId, hns, hnz]
    rw [heq]
    refine ⟨?_, ?_⟩ <;>
      cases fin <;>
        simp [spdy.Session.deliverFrame, List.lookup,
          spdy.SStream.inputWriteFrame, spdy.NewStream, spdy.Frame.fin,
          spdy.updateStreamTable]
  · intro hfail
    have hcond : (s.isLocalId id || (id != s.nextIdIn)) = true := by
      by_cases hloc : s.isLocalId id = true
      · simp [hloc]
      · have hloc' : s.isLocalId id = false := by
          cases hb : s.isLocalId id
          · rfl
          · exact absurd hb hloc
        have hne : id ≠ s.nextIdIn := fun hc => hfail ⟨hloc', hc⟩
        simp [hne]
    have hns : s.newStream id false =
        (s, Except.error "Invalid remote stream id") := by
      unfold spdy.Session.newStream
      simp [hcond]
    have heq : s.processFrame (spdy.Frame.synStream id fin) =
        spdy.Session.writeFrameOut s
          (spdy.Frame.rstStream id spdy.ProtocolError) := by
      unfold spdy.Session.processFrame
      simp [spdy.Frame.GetStreamId, hns, hnz]
    rw [heq]
    unfold spdy.Session.writeFrameOut
    exact ⟨rfl, rfl⟩

theorem processFrame_synStream_accepts_iff_witness :
    ((spdy.NewSession true true).isLocalId 1 = false ∧
        1 = (spdy.NewSession true true).nextIdIn →
      (List.lookup 1 ((spdy.NewSession true true).processFrame
          (spdy.Frame.synStream 1 false)).streams).isSome ∧
      ((spdy.NewSession true true).processFrame
          (spdy.Frame.synStream 1 false)).sent =
        (spdy.NewSession true true).sent) ∧
    (¬((spdy.NewSession true true).isLocalId 1 = false ∧
        1 = (spdy.NewSession true true).nextIdIn) →
      ((spdy.NewSession true true).processFrame
          (spdy.Frame.synStream 1 false)).streams =
        (spdy.NewSession true true).streams ∧
      ((spdy.NewSession true true).processFrame
          (spdy.Frame.synStream 1 false)).sent =
        (spdy.NewSession true true).sent ++
          [spdy.Frame.rstStream 1 spdy.ProtocolError]) :=
  processFrame_synStream_accepts_iff (spdy.NewSession true true) 1 false
    (by intro p hp; simp [spdy.NewSession] at hp) (by decide)
    (by norm_num [spdy.NewSession])

/-- The wire-record delta of one raw sink write: on success exactly the
frame is appended, on failure nothing is. -/
theorem sessionWriteFrame_delta (st : myspdy.WSt) (f : myspdy.SFrame) :
    ((myspdy.sessionWriteFrame st f).1.frames = st.frames ++ [f] ∧
      (myspdy.sessionWriteFrame st f).2 = none) ∨
    ((myspdy.sessionWriteFrame st f).1.frames = st.frames ∧
      ∃ e, (myspdy.sessionWriteFrame st f).2 = some e) := by
  unfold myspdy.sessionWriteFrame
  cases hs : st.script with
  | nil => exact Or.inl ⟨rfl, rfl⟩
  | cons o rest =>
      cases o with
      | none => exact Or.inl ⟨rfl, rfl⟩
      | some e => exact Or.inr ⟨rfl, e, rfl⟩

/-- `writeFrame` of a control frame moves the counter by exactly the
number of control frames that reached the wire. -/
theorem writeFrame_count (w : myspdy.StreamWriter) (st : myspdy.WSt)
    (f : myspdy.SFrame) (hf : f.isCtrl = true) :
    ∃ l, (w.writeFrame st f).2.1.frames = st.frames ++ l ∧
      (w.writeFrame st f).1.nFramesSent =
        w.nFramesSent + myspdy.ctrlCount l := by
  have hd := sessionWriteFrame_delta st f
  unfold myspdy.StreamWriter.writeFrame
  rcases hw : myspdy.sessionWriteFrame st f with ⟨st', e⟩
  rw [hw] at hd
  dsimp only at hd
  rcases hd with ⟨h1, h2⟩ | ⟨h1, e', h2⟩
  · subst h2
    refine ⟨[f], ?_, ?_⟩
    · simpa using h1
    · simp [myspdy.ctrlCount, hf]
  · subst h2
    refine ⟨[], ?_, ?_⟩
    · simpa using h1
    · simp [myspdy.ctrlCount]

/-- `SendHeaders` appends header-bearing frames only; the counter tracks
the successful ones. -/
theorem sendHeaders_count (w : myspdy.StreamWriter) (st : myspdy.WSt)
    (final : Bool) :
    ∃ l, (w.SendHeaders st final).2.1.frames = st.frames ++ l ∧
      (w.SendHeaders st final).1.nFramesSent =
        w.nFramesSent + myspdy.ctrlCount l := by
  unfold myspdy.StreamWriter.SendHeaders
  by_cases h0 : w.nFramesSent = 0
  · rw [if_pos h0]
    by_cases hm : w.isMine = true
    · rw [if_pos hm]
      exact writeFrame_count w st _ rfl
    · rw [if_neg hm]
      exact writeFrame_count w st _ rfl
  · rw [if_neg h0]
    exact writeFrame_count w st _ rfl

/-- `Send` appends at most one control frame (the implicit header send)
and one data frame; only the former is counted. -/
theorem send_count (w : myspdy.StreamWriter) (st : myspdy.WSt)
    (data : String) :
    ∃ l, (w.Send st data).2.1.frames = st.frames ++ l ∧
      (w.Send st data).1.nFramesSent =
        w.nFramesSent + myspdy.ctrlCount l := by
  unfold myspdy.StreamWriter.Send
  by_cases h0 : w.nFramesSent = 0
  · rw [if_pos h0]
    obtain ⟨l1, hf1, hn1⟩ := sendHeaders_count w st false
    rcases hsh : w.SendHeaders st false with ⟨w1, st1, e1⟩
    rw [hsh] at hf1 hn1
    dsimp only at hf1 hn1
    have hd := sessionWriteFrame_delta st1 (myspdy.SFrame.dataF w1.id data)
    rcases hdw : myspdy.sessionWriteFrame st1 (myspdy.SFrame.dataF w1.id data)
      with ⟨st2, e2⟩
    rw [hdw] at hd
    dsimp only at hd
    rcases hd with ⟨h1, h2⟩ | ⟨h1, e', h2⟩
    · refine ⟨l1 ++ [myspdy.SFrame.dataF w1.id data], ?_, ?_⟩
      · simp [hdw, h1, hf1]
      · simp [hn1, myspdy.ctrlCount, List.filter_append, myspdy.SFrame.isCtrl]
    · refine ⟨l1, ?_, ?_⟩
      · simp [hdw, h1, hf1]
      · simp [hn1]
  · rw [if_neg h0]
    have hd := sessionWriteFrame_delta st (myspdy.SFrame.dataF w.id data)
    rcases hdw : myspdy.sessionWriteFrame st (myspdy.SFrame.dataF w.id data)
      with ⟨st2, e2⟩
    rw [hdw] at hd
    dsimp only at hd
    rcases hd with ⟨h1, h2⟩ | ⟨h1, e', h2⟩
    · refine ⟨[myspdy.SFrame.dataF w.id data], ?_, ?_⟩
      · simp [hdw, h1]
      · simp [myspdy.ctrlCount, myspdy.SFrame.isCtrl]
    · refine ⟨[], ?_, ?_⟩
      · simp [hdw, h1]
      · simp [myspdy.ctrlCount]

/-- `SendLines` over an explicit source: the counter tracks exactly the
successful control frames of the sends performed. -/
theorem sendLines_count (lines : List String) (endErr : Option String)
    (w : myspdy.StreamWriter) (st : myspdy.WSt) :
    ∃ l, (w.SendLines st { lines := lines, endErr := endErr }).2.1.frames =
        st.frames ++ l ∧
      (w.SendLines st { lines := lines, endErr := endErr }).1.nFramesSent =
        w.nFramesSent + myspdy.ctrlCount l := by
  induction lines generalizing w st with
  | nil =>
      unfold myspdy.StreamWriter.SendLines
      cases endErr with
      | none => exact ⟨[], by simp, by simp [myspdy.ctrlCount]⟩
      | some e => exact ⟨[], by simp, by simp [myspdy.ctrlCount]⟩
  | cons line rest ih =>
      unfold myspdy.StreamWriter.SendLines
      obtain ⟨l1, hf1, hn1⟩ := send_count w st line
      rcases hsend : w.Send st line with ⟨w1, st1, e1⟩
      rw [hsend] at hf1 hn1
      dsimp only at hf1 hn1
      cases e1 with
      | some e =>
          refine ⟨l1, ?_, ?_⟩ <;> simp [hf1, hn1]
      | none =>
          obtain ⟨l2, hf2, hn2⟩ := ih w1 st1
          refine ⟨l1 ++ l2, ?_, ?_⟩
          · simp only [Option.isSome_none, Bool.false_eq_true, if_false]
            simp [hf2, hf1, List.append_assoc]
          · simp only [Option.isSome_none, Bool.false_eq_true, if_false]
            simp [hn2, hn1, myspdy.ctrlCount, List.filter_append,
              Nat.add_assoc]

/-- C4 (amended): `framesSent` counts exactly the successfully emitted
control (header-bearing) frames: every successful `writeFrame` of a
SYN_STREAM/SYN_REPLY/HEADERS frame adds one, a failed write adds
nothing, and the data frames emitted by `Send`/`SendLines` bypass the
counter entirely. -/
theorem nFramesSent_counts_control_frames :
    (∀ (w : myspdy.StreamWriter) (st : myspdy.WSt) (final : Bool),
        (w.SendHeaders st final).1.nFramesSent =
          w.nFramesSent +
            myspdy.ctrlCount (myspdy.newFrames st (w.SendHeaders st final).2.1)) ∧
    (∀ (w : myspdy.StreamWriter) (st : myspdy.WSt) (data : String),
        (w.Send st data).1.nFramesSent =
          w.nFramesSent +
            myspdy.ctrlCount (myspdy.newFrames st (w.Send st data).2.1)) ∧
    (∀ (w : myspdy.StreamWriter) (st : myspdy.WSt) (src : myspdy.LineSrc),
        (w.SendLines st src).1.nFramesSent =
          w.nFramesSent +
            myspdy.ctrlCount (myspdy.newFrames st (w.SendLines st src).2.1)) := by
  refine ⟨?_, ?_, ?_⟩
  · intro w st final
    obtain ⟨l, hf, hn⟩ := sendHeaders_count w st final
    rw [hn]
    unfold myspdy.newFrames
    rw [hf, List.drop_left]
  · intro w st data
    obtain ⟨l, hf, hn⟩ := send_count w st data
    rw [hn]
    unfold myspdy.newFrames
    rw [hf, List.drop_left]
  · intro w st src
    obtain ⟨l, hf, hn⟩ := sendLines_count src.lines src.endErr w st
    have hsrc : ({ lines := src.lines, endErr := src.endErr } :
        myspdy.LineSrc) = src := rfl
    rw [hsrc] at hf hn
    rw [hn]
    unfold myspdy.newFrames
    rw [hf, List.drop_left]

/-- Merging a singleton header delta makes its value win for that key. -/
theorem hGet_update_singleton (h : myspdy.Header) (k v : String) :
    myspdy.hGet (myspdy.updateHeaders h [(k, [v])]) k = v := by
  unfold myspdy.updateHeaders
  simp only [List.foldl_cons, List.foldl_nil]
  unfold myspdy.hSet myspdy.hGet
  simp [List.lookup]

/-- C8: piping a reader queued with exactly [headers{A:1}, data "x",
data "y"] followed by end-of-stream emits one header-bearing frame whose
headers carry A = "1", then the data frames "x" and "y" in order, and
returns without error. -/
theorem pipe_headers_then_data (rh : myspdy.Header) (w : myspdy.StreamWriter)
    (st : myspdy.WSt) (hsink : st.script = []) :
    ∃ f : myspdy.SFrame,
      ((c8Reader rh).Pipe w st).2.2.2 = none ∧
      ((c8Reader rh).Pipe w st).2.2.1.frames =
        st.frames ++ [f, myspdy.SFrame.dataF w.id "x",
          myspdy.SFrame.dataF w.id "y"] ∧
      f.isCtrl = true ∧ myspdy.hGet f.headersOf "A" = "1" := by
  obtain ⟨sfr, ssc⟩ := st
  dsimp only at hsink
  subst hsink
  by_cases h0 : w.nFramesSent = 0
  · by_cases hm : w.isMine = true
    · refine ⟨myspdy.SFrame.synStream w.id false
          (myspdy.updateHeaders w.headers [("A", ["1"])]), ?_, ?_, rfl,
          hGet_update_singleton w.headers "A" "1"⟩ <;>
        simp [c8Reader, c8Queue, myspdy.StreamReader.Pipe,
          myspdy.StreamReader.Receive, myspdy.StreamWriter.SendHeaders,
          myspdy.StreamWriter.Send, myspdy.StreamWriter.writeFrame,
          myspdy.sessionWriteFrame, h0, hm]
    · refine ⟨myspdy.SFrame.synReply w.id false
          (myspdy.updateHeaders w.headers [("A", ["1"])]), ?_, ?_, rfl,
          hGet_update_singleton w.headers "A" "1"⟩ <;>
        simp [c8Reader, c8Queue, myspdy.StreamReader.Pipe,
          myspdy.StreamReader.Receive, myspdy.StreamWriter.SendHeaders,
          myspdy.StreamWriter.Send, myspdy.StreamWriter.writeFrame,
          myspdy.sessionWriteFrame, h0, hm]
  · refine ⟨myspdy.SFrame.headersUpd w.id false
        (myspdy.updateHeaders w.headers [("A", ["1"])]), ?_, ?_, rfl,
        hGet_update_singleton w.headers "A" "1"⟩ <;>
      simp [c8Reader, c8Queue, myspdy.StreamReader.Pipe,
        myspdy.StreamReader.Receive, myspdy.StreamWriter.SendHeaders,
        myspdy.StreamWriter.Send, myspdy.StreamWriter.writeFrame,
        myspdy.sessionWriteFrame, h0]

theorem pipe_headers_then_data_witness :
    ∃ f : myspdy.SFrame,
      ((c8Reader []).Pipe freshWriter cleanSink).2.2.2 = none ∧
      ((c8Reader []).Pipe freshWriter cleanSink).2.2.1.frames =
        cleanSink.frames ++ [f, myspdy.SFrame.dataF freshWriter.id "x",
          myspdy.SFrame.dataF freshWriter.id "y"] ∧
      f.isCtrl = true ∧ myspdy.hGet f.headersOf "A" = "1" :=
  pipe_headers_then_data [] freshWriter cleanSink rfl

/-! `SessionWF` is not an extra assumption but the invariant of reachable
sessions: it holds of `NewSession` and is preserved by every session
operation (under the spec's 31-bit ID space, which keeps the uint32
increments from wrapping). -/

theorem sessionWF_newSession (hasHandler Server : Bool) :
    spdy.SessionWF (spdy.NewSession hasHandler Server) := by
  intro p hp
  simp [spdy.NewSession] at hp

theorem closeStream_fst_marks (s : spdy.Session) (id : Nat) :
    (s.CloseStream id).1.Server = s.Server ∧
    (s.CloseStream id).1.lastStreamIdOut = s.lastStreamIdOut ∧
    (s.CloseStream id).1.lastStreamIdIn = s.lastStreamIdIn := by
  unfold spdy.Session.CloseStream
  cases hl : List.lookup id s.streams with
  | none => exact ⟨rfl, rfl, rfl⟩
  | some st => exact ⟨rfl, rfl, rfl⟩

theorem isLocalId_eq_of_server (s s' : spdy.Session)
    (hS : s'.Server = s.Server) (id : Nat) :
    s'.isLocalId id = s.isLocalId id := by
  unfold spdy.Session.isLocalId
  rw [hS]

theorem sessionWF_closeStream (s : spdy.Session) (id : Nat)
    (h : spdy.SessionWF s) : spdy.SessionWF (s.CloseStream id).1 := by
  intro p hp
  rw [closeStream_fst_streams] at hp
  have hmem := (List.mem_filter.mp hp).1
  obtain ⟨h1, h2, h3⟩ := h p hmem
  obtain ⟨hS, hO, hI⟩ := closeStream_fst_marks s id
  refine ⟨h1, ?_, ?_⟩
  · intro hl
    rw [isLocalId_eq_of_server s _ hS] at hl
    rw [hO]
    exact h2 hl
  · intro hl
    rw [isLocalId_eq_of_server s _ hS] at hl
    rw [hI]
    exact h3 hl

theorem newStream_error_unchanged (s : spdy.Session) (id : Nat)
    (isLocal : Bool) (s' : spdy.Session) (e : String)
    (h : s.newStream id isLocal = (s', Except.error e)) : s' = s := by
  unfold spdy.Session.newStream at h
  split at h
  · exact (Prod.mk.injEq _ _ _ _ ▸ h).1.symm
  split at h
  · exact (Prod.mk.injEq _ _ _ _ ▸ h).1.symm
  split at h
  · exact (Prod.mk.injEq _ _ _ _ ▸ h).1.symm
  · simp at h

theorem sessionWF_newStream (s : spdy.Session) (id : Nat) (isLocal : Bool)
    (s' : spdy.Session) (st : spdy.SStream)
    (hltO : s.lastStreamIdOut + 2 < 2 ^ 32)
    (hltI : s.lastStreamIdIn + 2 < 2 ^ 32)
    (h : spdy.SessionWF s)
    (hns : s.newStream id isLocal = (s', Except.ok st)) :
    spdy.SessionWF s' := by
  unfold spdy.Session.newStream at hns
  split at hns
  · simp at hns
  split at hns
  · simp at hns
  split at hns
  · simp at hns
  rename_i hc1 hc2 hdup
  simp only [Prod.mk.injEq] at hns
  obtain ⟨hs', -⟩ := hns
  subst hs'
  cases isLocal with
  | true =>
      have hloc : s.isLocalId id = true := by
        cases hli : s.isLocalId id with
        | true => rfl
        | false => exact absurd (by simp [hli]) hc1
      have hnext : id = s.nextIdOut := by
        by_cases hn : id = s.nextIdOut
        · exact hn
        · exact absurd (by simp [hn]) hc1
      have hid0 : id ≠ 0 := by
        rw [hnext]
        unfold spdy.Session.nextIdOut
        by_cases hz : s.lastStreamIdOut = 0
        · rw [if_pos hz]
          cases s.Server <;> simp
        · rw [if_neg hz]
          rw [Nat.mod_eq_of_lt hltO]
          omega
      have hidO : ∀ q ∈ s.streams, s.isLocalId q.1 = true → q.1 ≤ id := by
        intro q hq hql
        have hb := (h q hq).2.1 hql
        have hq0 := (h q hq).1
        rw [hnext]
        unfold spdy.Session.nextIdOut
        by_cases hz : s.lastStreamIdOut = 0
        · rw [hz] at hb
          omega
        · rw [if_neg hz, Nat.mod_eq_of_lt hltO]
          omega
      intro p hp
      rcases List.mem_cons.mp hp with hph | hpt
      · subst hph
        refine ⟨hid0, ?_, ?_⟩
        · intro _
          simp
        · intro hl
          have hl2 : s.isLocalId id = false := hl
          rw [hloc] at hl2
          simp at hl2
      · obtain ⟨h1, h2, h3⟩ := h p hpt
        refine ⟨h1, ?_, ?_⟩
        · intro hl
          have hl2 : s.isLocalId p.1 = true := hl
          simpa using hidO p hpt hl2
        · intro hl
          have hl2 : s.isLocalId p.1 = false := hl
          simpa using h3 hl2
  | false =>
      have hloc : s.isLocalId id = false := by
        cases hli : s.isLocalId id with
        | false => rfl
        | true => exact absurd (by simp [hli]) hc2
      have hnext : id = s.nextIdIn := by
        by_cases hn : id = s.nextIdIn
        · exact hn
        · exact absurd (by simp [hn]) hc2
      have hid0 : id ≠ 0 := by
        rw [hnext]
        unfold spdy.Session.nextIdIn
        by_cases hz : s.lastStreamIdIn = 0
        · rw [if_pos hz]
          cases s.Server <;> simp
        · rw [if_neg hz]
          rw [Nat.mod_eq_of_lt hltI]
          omega
      have hidI : ∀ q ∈ s.streams, s.isLocalId q.1 = false → q.1 ≤ id := by
        intro q hq hql
        have hb := (h q hq).2.2 hql
        have hq0 := (h q hq).1
        rw [hnext]
        unfold spdy.Session.nextIdIn
        by_cases hz : s.lastStreamIdIn = 0
        · rw [hz] at hb
          omega
        · rw [if_neg hz, Nat.mod_eq_of_lt hltI]
          omega
      intro p hp
      rcases List.mem_cons.mp hp with hph | hpt
      · subst hph
        refine ⟨hid0, ?_, ?_⟩
        · intro hl
          have hl2 : s.isLocalId id = true := hl
          rw [hloc] at hl2
          simp at hl2
        · intro _
          simp
      · obtain ⟨h1, h2, h3⟩ := h p hpt
        refine ⟨h1, ?_, ?_⟩
        · intro hl
          have hl2 : s.isLocalId p.1 = true := hl
          simpa using h2 hl2
        · intro hl
          have hl2 : s.isLocalId p.1 = false := hl
          simpa using hidI p hpt hl2

theorem sessionWF_update (s : spdy.Session) (id : Nat) (st : spdy.SStream)
    (h : spdy.SessionWF s) :
    spdy.SessionWF
      { s with streams := spdy.updateStreamTable s.streams id st } := by
  intro p hp
  unfold spdy.updateStreamTable at hp
  simp only [List.mem_map] at hp
  obtain ⟨q, hq, hpq⟩ := hp
  obtain ⟨h1, h2, h3⟩ := h q hq
  by_cases hqe : q.1 = id
  · rw [if_pos hqe] at hpq
    subst hpq
    exact ⟨h1, h2, h3⟩
  · rw [if_neg hqe] at hpq
    subst hpq
    exact ⟨h1, h2, h3⟩

theorem sessionWF_deliverFrame (s : spdy.Session) (streamId : Nat)
    (f : spdy.Frame) (h : spdy.SessionWF s) :
    spdy.SessionWF (s.deliverFrame streamId f) := by
  unfold spdy.Session.deliverFrame
  cases hl : List.lookup streamId s.streams with
  | none =>
      intro p hp
      exact h p hp
  | some stream =>
      rcases hw : stream.inputWriteFrame f with ⟨stream', res⟩
      have hupd := sessionWF_update s streamId stream' h
      simp only [hw]
      cases res with
      | eofR =>
          by_cases ho : stream'.outputClosed = true
          · simp only [ho, if_true]
            exact sessionWF_closeStream _ _ hupd
          · simp only [ho]
            simpa using hupd
      | errR => exact sessionWF_closeStream _ _ hupd
      | ok => exact hupd

theorem sessionWF_processFrame (s : spdy.Session) (f : spdy.Frame)
    (hltO : s.lastStreamIdOut + 2 < 2 ^ 32)
    (hltI : s.lastStreamIdIn + 2 < 2 ^ 32)
    (h : spdy.SessionWF s) : spdy.SessionWF (s.processFrame f) := by
  unfold spdy.Session.processFrame
  by_cases hz : (f.GetStreamId != 0) = true
  · rw [if_pos hz]
    cases f with
    | synStream id fin =>
        rcases hns : s.newStream
            (spdy.Frame.GetStreamId (spdy.Frame.synStream id fin)) false
          with ⟨s', r⟩
        cases r with
        | error e =>
            have hse : s' = s := newStream_error_unchanged s _ false s' e hns
            subst hse
            intro p hp
            exact h p hp
        | ok st =>
            exact sessionWF_deliverFrame _ _ _
              (sessionWF_newStream s _ false s' st hltO hltI h hns)
    | synReply id fin => exact sessionWF_deliverFrame _ _ _ h
    | headersF id fin => exact sessionWF_deliverFrame _ _ _ h
    | dataF id fin => exact sessionWF_deliverFrame _ _ _ h
    | rstStream id status => exact sessionWF_deliverFrame _ _ _ h
    | settings => exact sessionWF_deliverFrame _ _ _ h
    | noop => exact sessionWF_deliverFrame _ _ _ h
    | ping => exact sessionWF_deliverFrame _ _ _ h
    | goAway => exact sessionWF_deliverFrame _ _ _ h
  · rw [if_neg hz]
    exact h

theorem sessionWF_close (s : spdy.Session) : spdy.SessionWF s.Close := by
  intro p hp
  rw [(close_closes_everything s).2] at hp
  simp at hp

theorem sessionWF_openStream (s : spdy.Session) (s' : spdy.Session)
    (st : spdy.SStream) (hltO : s.lastStreamIdOut + 2 < 2 ^ 32)
    (hltI : s.lastStreamIdIn + 2 < 2 ^ 32) (h : spdy.SessionWF s)
    (ho : s.OpenStream = (s', Except.ok st)) : spdy.SessionWF s' := by
  unfold spdy.Session.OpenStream at ho
  exact sessionWF_newStream s _ true s' st hltO hltI h ho
